import Mathlib

/-!
# Verification of the bujo planner layout / pagination / cross-reference engine

Shallow embedding of the page-generation pipeline of the
`remarkable-template-maker` repository:

* `src/lib/pdf/templates/bujo/types.ts` — data model (`PageRef`, `NavItem`,
  `PageRegistry`, `NavContext`, `Dimensions`);
* `src/lib/pdf/templates/bujo/navigation.ts` — `buildPageRegistry`,
  `getNavItemsForPage`, `resolveNavTarget`, `addComprehensiveNavigation`,
  `addMonthlyDateLinks`;
* `src/lib/pdf/templates/bujo/page-utils.ts` — `getNavLabels`,
  `drawTopNavigation`, `drawPageTitle`;
* `src/lib/pdf/templates/bujo/bujo-monthly.ts` — `generateMonthlyLog`;
* `src/lib/pdf/templates/bujo/index.ts` — `addBujoIndex` (page insertion and
  link emission order);
* `src/lib/pdf/hyperlinks.ts` — `createInternalLink`;
* `src/lib/pdf-generator.ts` — `generatePlannerPDF` (content generation,
  index insertion, the `pageIndex += indexPageCount` shift).

Geometry (JavaScript numbers) is modelled with `ℚ`; page counts and page
indices with `Nat`.  A JavaScript `Map` is modelled as the list of its
`set` events, looked up last-match-first (`lookupLast`), which matches
`Map.set` / `Map.get` overwrite semantics.
-/

namespace Bujo

/-- Page types, from `types.ts` (`PageType`). -/
inductive PageType where
  | key
  | future
  | monthly
  | monthlyTasks
  | weekly
  | daily
  | collection
  | index
deriving DecidableEq, Repr

/-- A calendar date as produced by the JS `Date` accessors used in the code:
`getFullYear()`, `getMonth()` (0-based) and `getDate()` (1-based). -/
structure CalDate where
  year : Nat
  month0 : Nat
  day : Nat
deriving DecidableEq, Repr

/-- A page reference, from `types.ts` (`PageRef`).  Optional JS fields are
`Option`s. -/
structure PageRef where
  label : String
  pageIndex : Nat
  type : PageType
  date : Option CalDate := none
  monthIndex : Option Nat := none
  weekIndex : Option Nat := none
  yearMonth : Option String := none
deriving DecidableEq, Repr

/-- Target types of a navigation item, from `types.ts` (`NavItem.targetType`). -/
inductive TargetType where
  | index
  | future
  | monthly
  | monthlyTasks
  | weekly
  | prev
  | next
deriving DecidableEq, Repr

/-- A navigation item, from `types.ts` (`NavItem`). -/
structure NavItem where
  label : String
  targetType : TargetType
  targetKey : Option String := none
deriving DecidableEq, Repr

/-- Last-match lookup in a list of `(key, value)` set events: the value of the
most recent `set` for the key.  This is the JS `Map.get` after a sequence of
`Map.set` calls modelled by appending to the list. -/
def lookupLast {α β : Type} [DecidableEq α] : List (α × β) → α → Option β
  | [], _ => none
  | (k, v) :: rest, key =>
    match lookupLast rest key with
    | some r => some r
    | none => if k = key then some v else none

/-- The page registry, from `types.ts` (`PageRegistry`).  The JS `Map`s are
modelled as their `set`-event lists; `pagesByType` (initialised for all eight
types in `buildPageRegistry`) is modelled as a total function. -/
structure PageRegistry where
  indexPage : Nat
  futureLogPages : List Nat
  monthlyCalPages : List (String × Nat)
  monthlyTasksPages : List (String × Nat)
  weeklyPages : List (Nat × Nat)
  dailyPages : List (String × Nat)
  collectionPages : List Nat
  keyPage : Option Nat
  pagesByType : PageType → List Nat

/-- Two-digit zero padding, JS `String(n).padStart(2, '0')`. -/
def padTwo (n : Nat) : String :=
  if n < 10 then "0" ++ toString n else toString n

/-- `formatDateKey` from `navigation.ts`: `"YYYY-MM-DD"` with a 1-based month
(`getMonth() + 1`). -/
def formatDateKey (d : CalDate) : String :=
  toString d.year ++ "-" ++ padTwo (d.month0 + 1) ++ "-" ++ padTwo d.day

/-- `formatYearMonth` from `navigation.ts`: `"YYYY-MM"`. -/
def formatYearMonth (d : CalDate) : String :=
  toString d.year ++ "-" ++ padTwo (d.month0 + 1)

/-- The empty registry `buildPageRegistry` starts from (`navigation.ts`
lines 16–31): all lists empty, `keyPage` unset, every type's `pagesByType`
entry initialised to the empty list. -/
def emptyRegistry (indexPageIndex : Nat) : PageRegistry where
  indexPage := indexPageIndex
  futureLogPages := []
  monthlyCalPages := []
  monthlyTasksPages := []
  weeklyPages := []
  dailyPages := []
  collectionPages := []
  keyPage := none
  pagesByType := fun _ => []

/-- One iteration of the `for (const ref of pageRefs)` loop in
`buildPageRegistry` (`navigation.ts` lines 33–78): push the page index onto
the type list, then the `switch` on `ref.type`.  Note the `monthly` /
`monthly-tasks` / `weekly` / `daily` cases use plain `Map.set`, i.e. a later
reference with the same key overwrites an earlier one. -/
def regStep (reg : PageRegistry) (ref : PageRef) : PageRegistry :=
  let reg1 : PageRegistry :=
    { reg with
      pagesByType := fun t =>
        if t = ref.type then reg.pagesByType t ++ [ref.pageIndex]
        else reg.pagesByType t }
  match ref.type with
  | .key => { reg1 with keyPage := some ref.pageIndex }
  | .future => { reg1 with futureLogPages := reg1.futureLogPages ++ [ref.pageIndex] }
  | .monthly =>
    match ref.yearMonth with
    | some ym => { reg1 with monthlyCalPages := reg1.monthlyCalPages ++ [(ym, ref.pageIndex)] }
    | none => reg1
  | .monthlyTasks =>
    match ref.yearMonth with
    | some ym => { reg1 with monthlyTasksPages := reg1.monthlyTasksPages ++ [(ym, ref.pageIndex)] }
    | none => reg1
  | .weekly =>
    match ref.weekIndex with
    | some w => { reg1 with weeklyPages := reg1.weeklyPages ++ [(w, ref.pageIndex)] }
    | none => reg1
  | .daily =>
    match ref.date with
    | some d => { reg1 with dailyPages := reg1.dailyPages ++ [(formatDateKey d, ref.pageIndex)] }
    | none => reg1
  | .collection => { reg1 with collectionPages := reg1.collectionPages ++ [ref.pageIndex] }
  | .index => reg1

/-- `buildPageRegistry` from `navigation.ts`. -/
def buildPageRegistry (pageRefs : List PageRef) (indexPageIndex : Nat) : PageRegistry :=
  pageRefs.foldl regStep (emptyRegistry indexPageIndex)

/-- Monthly-reference filter used to state what `buildPageRegistry` stores for
a `yearMonth` key: the monthly refs carrying that key, in list order. -/
def monthlyRefsFor (refs : List PageRef) (ym : String) : List PageRef :=
  refs.filter (fun r => decide (r.type = PageType.monthly ∧ r.yearMonth = some ym))

theorem lookupLast_append_single {α β : Type} [DecidableEq α]
    (m : List (α × β)) (k key : α) (v : β) :
    lookupLast (m ++ [(k, v)]) key =
      if k = key then some v else lookupLast m key := by
  induction m with
  | nil => simp [lookupLast]
  | cons p rest ih =>
    obtain ⟨k0, v0⟩ := p
    have h1 : lookupLast ((k0, v0) :: (rest ++ [(k, v)])) key =
        match lookupLast (rest ++ [(k, v)]) key with
        | some r => some r
        | none => if k0 = key then some v0 else none := rfl
    rw [List.cons_append, h1, ih]
    by_cases hk : k = key
    · simp [hk]
    · simp only [if_neg hk]
      cases h : lookupLast rest key <;> simp [lookupLast, h]

theorem regStep_pagesByType (reg : PageRegistry) (r : PageRef) (t : PageType) :
    (regStep reg r).pagesByType t =
      reg.pagesByType t ++ if r.type = t then [r.pageIndex] else [] := by
  cases href : r.type with
  | key => by_cases ht : t = PageType.key <;> simp [regStep, href, ht, eq_comm]
  | future => by_cases ht : t = PageType.future <;> simp [regStep, href, ht, eq_comm]
  | monthly =>
    cases hym : r.yearMonth <;>
      · by_cases ht : t = PageType.monthly <;> simp [regStep, href, hym, ht, eq_comm]
  | monthlyTasks =>
    cases hym : r.yearMonth <;>
      · by_cases ht : t = PageType.monthlyTasks <;> simp [regStep, href, hym, ht, eq_comm]
  | weekly =>
    cases hw : r.weekIndex <;>
      · by_cases ht : t = PageType.weekly <;> simp [regStep, href, hw, ht, eq_comm]
  | daily =>
    cases hd : r.date <;>
      · by_cases ht : t = PageType.daily <;> simp [regStep, href, hd, ht, eq_comm]
  | collection =>
    by_cases ht : t = PageType.collection <;> simp [regStep, href, ht, eq_comm]
  | index => by_cases ht : t = PageType.index <;> simp [regStep, href, ht, eq_comm]

theorem regStep_monthlyCal_lookup (reg : PageRegistry) (r : PageRef) (ym : String) :
    lookupLast (regStep reg r).monthlyCalPages ym =
      if r.type = PageType.monthly ∧ r.yearMonth = some ym then some r.pageIndex
      else lookupLast reg.monthlyCalPages ym := by
  cases href : r.type with
  | monthly =>
    cases hym : r.yearMonth with
    | none => simp [regStep, href, hym]
    | some y =>
      simp only [regStep, href]
      rw [hym]
      simp only [lookupLast_append_single]
      by_cases hy : y = ym <;> simp [hym, hy]
  | key => simp [regStep, href]
  | future => simp [regStep, href]
  | monthlyTasks => cases hym : r.yearMonth <;> simp [regStep, href, hym]
  | weekly => cases hw : r.weekIndex <;> simp [regStep, href, hw]
  | daily => cases hd : r.date <;> simp [regStep, href, hd]
  | collection => simp [regStep, href]
  | index => simp [regStep, href]

/-- `buildPageRegistry` fold lemma for the per-type page lists: the final
`pagesByType t` is the initial list extended by the page indices of the refs
of type `t`, in traversal order. -/
theorem foldl_regStep_pagesByType (refs : List PageRef) (reg : PageRegistry) (t : PageType) :
    (refs.foldl regStep reg).pagesByType t =
      reg.pagesByType t ++ (refs.filter (fun r => decide (r.type = t))).map (·.pageIndex) := by
  induction refs generalizing reg with
  | nil => simp
  | cons r rest ih =>
    rw [List.foldl_cons, ih, regStep_pagesByType]
    by_cases hrt : r.type = t <;> simp [hrt, List.filter_cons]

/-- `buildPageRegistry` fold lemma for `monthlyCalPages`: the final lookup for
a `yearMonth` key is the page index of the *last* monthly ref carrying that
key, falling back to the initial registry's entry. -/
theorem foldl_regStep_monthlyCal (refs : List PageRef) (reg : PageRegistry) (ym : String) :
    lookupLast (refs.foldl regStep reg).monthlyCalPages ym =
      match (monthlyRefsFor refs ym).getLast?.map (·.pageIndex) with
      | some p => some p
      | none => lookupLast reg.monthlyCalPages ym := by
  induction refs generalizing reg with
  | nil => simp [monthlyRefsFor]
  | cons r rest ih =>
    rw [List.foldl_cons, ih]
    by_cases hr : r.type = PageType.monthly ∧ r.yearMonth = some ym
    · have hcons : monthlyRefsFor (r :: rest) ym = r :: monthlyRefsFor rest ym := by
        simp [monthlyRefsFor, List.filter_cons, hr]
      rw [hcons]
      cases hlast : (monthlyRefsFor rest ym).getLast?
      · have hnil : monthlyRefsFor rest ym = [] := List.getLast?_eq_none_iff.mp hlast
        simp [hnil, regStep_monthlyCal_lookup, hr]
      · have hne : monthlyRefsFor rest ym ≠ [] := by
          intro h
          rw [h] at hlast
          simp at hlast
        obtain ⟨x, xs, hx⟩ := List.exists_cons_of_ne_nil hne
        rw [hx, List.getLast?_cons_cons, ← hx, hlast]
        simp
    · have hcons : monthlyRefsFor (r :: rest) ym = monthlyRefsFor rest ym := by
        simp only [monthlyRefsFor, List.filter_cons]
        rw [if_neg (by simpa using hr)]
      rw [hcons]
      cases hlast : (monthlyRefsFor rest ym).getLast? <;>
        simp [regStep_monthlyCal_lookup, hr]

/-- `NavContext` from `types.ts`: which sections exist, passed to the page
generators for nav rendering. -/
structure NavContext where
  hasFutureLog : Bool
  hasMonthlyLog : Bool
  hasWeeklyReview : Bool
  hasDailyLog : Bool
deriving DecidableEq, Repr

/-- `getNavLabels` from `page-utils.ts` lines 11–81: the visible label
sequence for a page type, keyed only by the section flags. -/
def getNavLabels (pageType : PageType) (nav : NavContext) : List String :=
  match pageType with
  | .daily =>
    ["Index"]
      ++ (if nav.hasFutureLog then ["Future Log"] else [])
      ++ (if nav.hasMonthlyLog then ["Monthly", "Tasks"] else [])
      ++ (if nav.hasWeeklyReview then ["Weekly"] else [])
  | .weekly =>
    ["<", "Index"]
      ++ (if nav.hasFutureLog then ["Future Log"] else [])
      ++ (if nav.hasMonthlyLog then ["Monthly", "Tasks"] else [])
      ++ [">"]
  | .monthly =>
    ["<", "Index"]
      ++ (if nav.hasFutureLog then ["Future Log"] else [])
      ++ ["Tasks", ">"]
  | .monthlyTasks =>
    ["<", "Index"]
      ++ (if nav.hasFutureLog then ["Future Log"] else [])
      ++ ["Calendar", ">"]
  | .future => ["Index"]
  | .key =>
    ["Index"]
      ++ (if nav.hasFutureLog then ["Future Log"] else [])
  | .collection => ["<", "Index", ">"]
  | .index => if nav.hasFutureLog then ["Future Log"] else []

/-- `getNavItemsForPage` from `navigation.ts` lines 101–197.  The section
flags are derived from the registry (`futureLogPages.length > 0`,
`monthlyCalPages.size > 0`, `weeklyPages.size > 0`); `yearMonth` falls back
from the ref's own field to `formatYearMonth(ref.date)`, and the weekly key is
`ref.weekIndex?.toString()`. -/
def getNavItemsForPage (ref : PageRef) (reg : PageRegistry) : List NavItem :=
  let yearMonth : Option String :=
    match ref.yearMonth with
    | some ym => some ym
    | none => ref.date.map formatYearMonth
  let weekKey : Option String := ref.weekIndex.map (fun w => toString w)
  let hasFutureLog : Bool := decide (0 < reg.futureLogPages.length)
  let hasMonthlyLog : Bool := decide (0 < reg.monthlyCalPages.length)
  let hasWeeklyReview : Bool := decide (0 < reg.weeklyPages.length)
  match ref.type with
  | .daily =>
    [⟨"Index", .index, none⟩]
      ++ (if hasFutureLog then [⟨"Future Log", .future, none⟩] else [])
      ++ (if hasMonthlyLog then
            [⟨"Monthly", .monthly, yearMonth⟩, ⟨"Tasks", .monthlyTasks, yearMonth⟩]
          else [])
      ++ (if hasWeeklyReview then [⟨"Weekly", .weekly, weekKey⟩] else [])
  | .weekly =>
    [⟨"<", .prev, none⟩, ⟨"Index", .index, none⟩]
      ++ (if hasFutureLog then [⟨"Future Log", .future, none⟩] else [])
      ++ (if hasMonthlyLog then
            [⟨"Monthly", .monthly, yearMonth⟩, ⟨"Tasks", .monthlyTasks, yearMonth⟩]
          else [])
      ++ [⟨">", .next, none⟩]
  | .monthly =>
    [⟨"<", .prev, none⟩, ⟨"Index", .index, none⟩]
      ++ (if hasFutureLog then [⟨"Future Log", .future, none⟩] else [])
      ++ [⟨"Tasks", .monthlyTasks, yearMonth⟩, ⟨">", .next, none⟩]
  | .monthlyTasks =>
    [⟨"<", .prev, none⟩, ⟨"Index", .index, none⟩]
      ++ (if hasFutureLog then [⟨"Future Log", .future, none⟩] else [])
      ++ [⟨"Calendar", .monthly, yearMonth⟩, ⟨">", .next, none⟩]
  | .future => [⟨"Index", .index, none⟩]
  | .key =>
    [⟨"Index", .index, none⟩]
      ++ (if hasFutureLog then [⟨"Future Log", .future, none⟩] else [])
  | .collection => [⟨"<", .prev, none⟩, ⟨"Index", .index, none⟩, ⟨">", .next, none⟩]
  | .index => if hasFutureLog then [⟨"Future Log", .future, none⟩] else []

/-- JS `parseInt` restricted to its use in `resolveNavTarget`: parse the
leading run of decimal digits, `none` (NaN, which misses every map key) when
there is none. -/
def parseIntJs (s : String) : Option Nat :=
  let ds := s.toList.takeWhile (fun c => c.isDigit)
  if ds.isEmpty then none
  else some (ds.foldl (fun a c => a * 10 + (c.toNat - 48)) 0)

/-- `resolveNavTarget` from `navigation.ts` lines 202–249.  `prev`/`next` use
`indexOf` on the per-type list (the `idx === -1` guard is the `contains`
test) and return `undefined` at either boundary. -/
def resolveNavTarget (item : NavItem) (ref : PageRef) (reg : PageRegistry) : Option Nat :=
  match item.targetType with
  | .index => some reg.indexPage
  | .future => reg.futureLogPages.head?
  | .monthly =>
    match item.targetKey with
    | some k => lookupLast reg.monthlyCalPages k
    | none => none
  | .monthlyTasks =>
    match item.targetKey with
    | some k => lookupLast reg.monthlyTasksPages k
    | none => none
  | .weekly =>
    match item.targetKey with
    | some k =>
      match parseIntJs k with
      | some n => lookupLast reg.weeklyPages n
      | none => none
    | none => none
  | .prev =>
    let typePages := reg.pagesByType ref.type
    if typePages.contains ref.pageIndex then
      let idx := typePages.indexOf ref.pageIndex
      if 0 < idx then typePages.get? (idx - 1) else none
    else none
  | .next =>
    let typePages := reg.pagesByType ref.type
    if typePages.contains ref.pageIndex then
      let idx := typePages.indexOf ref.pageIndex
      if idx + 1 < typePages.length then typePages.get? (idx + 1) else none
    else none

/-- Per-side padding from the `Dimensions` interface in `types.ts`. -/
structure Padding where
  top : ℚ
  bottom : ℚ
  left : ℚ
  right : ℚ
deriving DecidableEq, Repr

/-- `Dimensions` from `types.ts` (geometry fields only). -/
structure Dimensions where
  WIDTH : ℚ
  HEIGHT : ℚ
  MARGIN : ℚ
  TOOLBAR_HEIGHT : ℚ
  padding : Padding
deriving DecidableEq, Repr

/-- The separator text drawn between navigation labels in both
`drawTopNavigation` and `addComprehensiveNavigation`. -/
def navSep : String := "  |  "

/-- The navigation baseline used by `drawTopNavigation` (`page-utils.ts`):
`navY = HEIGHT - padding.top - navFontSize - 2` with `navFontSize = 7`. -/
def pageUtilsNavY (dims : Dimensions) : ℚ :=
  dims.HEIGHT - dims.padding.top - 7 - 2

/-- The navigation baseline recomputed by `addComprehensiveNavigation`
(`navigation.ts` line 387). -/
def compNavY (dims : Dimensions) : ℚ :=
  dims.HEIGHT - dims.padding.top - 7 - 2

/-- The label positions produced by the drawing loop of `drawTopNavigation`
(`page-utils.ts` lines 105–126): starting from the given x, each label is
drawn at the running x, which then advances by the label's width plus — except
after the last label — the separator's width.  `fw` is the font's
`widthOfTextAtSize` at the nav font size. -/
def drawTopNavPositions (fw : String → ℚ) : List String → ℚ → List (String × ℚ)
  | [], _ => []
  | lab :: rest, navX =>
    (lab, navX) ::
      drawTopNavPositions fw rest
        (navX + fw lab + (if rest.isEmpty then 0 else fw navSep))

/-- The item positions walked by the link loop of `addComprehensiveNavigation`
(`navigation.ts` lines 395–413): the same accumulation over `NavItem`s. -/
def compNavPositions (fw : String → ℚ) : List NavItem → ℚ → List (NavItem × ℚ)
  | [], _ => []
  | item :: rest, navX =>
    (item, navX) ::
      compNavPositions fw rest
        (navX + fw item.label + (if rest.isEmpty then 0 else fw navSep))

/-- A clickable link rectangle emitted over a navigation label. -/
structure NavLink where
  sourcePage : Nat
  label : String
  x : ℚ
  y : ℚ
  width : ℚ
  height : ℚ
  target : Nat
deriving DecidableEq, Repr

/-- The link-emission loop of `addComprehensiveNavigation` (`navigation.ts`
lines 396–414) for one page: walk the nav items accumulating x; for each item
emit a clickable rect `(navX - 2, navY - 3, textWidth + 4, 12)` only when
`resolveNavTarget` yields a page, and emit nothing otherwise. -/
def compNavLinksLoop (fw : String → ℚ) (navY : ℚ) (pageIdx : Nat)
    (ref : PageRef) (reg : PageRegistry) : List NavItem → ℚ → List NavLink
  | [], _ => []
  | item :: rest, navX =>
    let tw := fw item.label
    let tail := compNavLinksLoop fw navY pageIdx ref reg rest
      (navX + tw + (if rest.isEmpty then 0 else fw navSep))
    match resolveNavTarget item ref reg with
    | some t => ⟨pageIdx, item.label, navX - 2, navY - 3, tw + 4, 12, t⟩ :: tail
    | none => tail

/-- `addComprehensiveNavigation` restricted to a single page reference:
items from `getNavItemsForPage`, x starting at `padding.left`. -/
def compNavLinksForPage (fw : String → ℚ) (dims : Dimensions)
    (ref : PageRef) (reg : PageRegistry) : List NavLink :=
  compNavLinksLoop fw (compNavY dims) ref.pageIndex ref reg
    (getNavItemsForPage ref reg) dims.padding.left

theorem indexOf_getLast_nodup {α : Type} [DecidableEq α] (l : List α) (hne : l ≠ [])
    (hnd : l.Nodup) : l.indexOf (l.getLast hne) = l.length - 1 := by
  induction l with
  | nil => exact absurd rfl hne
  | cons a rest ih =>
    cases rest with
    | nil => simp
    | cons b rs =>
      have hne2 : b :: rs ≠ [] := by simp
      have hg : (a :: b :: rs).getLast (by simp) = (b :: rs).getLast hne2 :=
        List.getLast_cons hne2
      have hmem : (b :: rs).getLast hne2 ∈ b :: rs := List.getLast_mem hne2
      have hanotin : a ∉ b :: rs := (List.nodup_cons.mp hnd).1
      have hane : a ≠ (b :: rs).getLast hne2 := by
        intro h
        exact hanotin (h ▸ hmem)
      rw [hg, List.indexOf_cons_ne _ (by simpa using hane),
        ih hne2 (List.nodup_cons.mp hnd).2]
      simp

/-- The link loop of `addComprehensiveNavigation` emits exactly one link per
resolvable item, at that item's accumulated x, and nothing for an
unresolvable item. -/
theorem compNavLinksLoop_eq_filterMap (fw : String → ℚ) (navY : ℚ) (pageIdx : Nat)
    (ref : PageRef) (reg : PageRegistry) (items : List NavItem) (x : ℚ) :
    compNavLinksLoop fw navY pageIdx ref reg items x =
      (compNavPositions fw items x).filterMap
        (fun p =>
          (resolveNavTarget p.1 ref reg).map
            (fun t =>
              ⟨pageIdx, p.1.label, p.2 - 2, navY - 3, fw p.1.label + 4, 12, t⟩)) := by
  induction items generalizing x with
  | nil => simp [compNavLinksLoop, compNavPositions]
  | cons item rest ih =>
    simp only [compNavLinksLoop, compNavPositions, List.filterMap_cons, ih]
    cases h : resolveNavTarget item ref reg <;> simp [h]

/-- Position lists agree whenever the label sequences agree: the accumulation
in `addComprehensiveNavigation` matches the one in `drawTopNavigation`. -/
theorem compNavPositions_map_label (fw : String → ℚ) (items : List NavItem) :
    ∀ (labels : List String), items.map (·.label) = labels →
    ∀ x, (compNavPositions fw items x).map (fun p => (p.1.label, p.2)) =
      drawTopNavPositions fw labels x := by
  induction items with
  | nil =>
    intro labels h x
    simp only [List.map_nil] at h
    subst h
    simp [compNavPositions, drawTopNavPositions]
  | cons item rest ih =>
    intro labels h x
    cases labels with
    | nil => simp at h
    | cons lab labs =>
      simp only [List.map_cons, List.cons.injEq] at h
      obtain ⟨h1, h2⟩ := h
      simp only [compNavPositions, drawTopNavPositions, List.map_cons]
      have hemp : rest.isEmpty = labs.isEmpty := by
        cases rest <;> cases labs <;> simp_all
      rw [h1, hemp]
      exact congrArg (List.cons (lab, x)) (ih labs h2 _)

/-- The label sequence walked by `getNavItemsForPage` equals the label
sequence drawn via `getNavLabels`, whenever the `NavContext` flags match the
registry contents. -/
theorem navItems_labels_eq (ref : PageRef) (reg : PageRegistry) (nav : NavContext)
    (hFL : nav.hasFutureLog = decide (0 < reg.futureLogPages.length))
    (hML : nav.hasMonthlyLog = decide (0 < reg.monthlyCalPages.length))
    (hWR : nav.hasWeeklyReview = decide (0 < reg.weeklyPages.length)) :
    (getNavItemsForPage ref reg).map (·.label) = getNavLabels ref.type nav := by
  rcases ref with ⟨lab, pi, ty, da, mi, wi, ym⟩
  cases ty <;>
    · simp only [getNavItemsForPage, getNavLabels, hFL, hML, hWR]
      by_cases h1 : 0 < reg.futureLogPages.length <;>
        by_cases h2 : 0 < reg.monthlyCalPages.length <;>
        by_cases h3 : 0 < reg.weeklyPages.length <;>
        simp [h1, h2, h3]

/-- The density fields used by the monthly generator (`DENSITY_CONFIGS` in
`types/planner.ts`). -/
structure Density where
  lineHeight : ℚ
  fontSize : ℚ
deriving DecidableEq, Repr

/-- JS `Math.round` for the nonnegative values appearing here: round half up,
`⌊x + 1/2⌋`. -/
def jsRound (x : ℚ) : ℤ := ⌊x + 1 / 2⌋

/-- `minLineHeight = Math.round(density.lineHeight * 0.7)` (`bujo-monthly.ts`
line 18; recomputed identically in `addMonthlyDateLinks`,
`navigation.ts` line 450).  The JS float literal `0.7` is modelled as the
exact rational `7/10`. -/
def minLineHeightOf (density : Density) : ℚ :=
  (jsRound (density.lineHeight * (7 / 10)) : ℚ)

/-- `availableHeight = HEIGHT - padding.top - padding.bottom - navHeight(20) -
headerHeight(25) - 10` (`bujo-monthly.ts` line 25; recomputed identically in
`addMonthlyDateLinks`, `navigation.ts` line 452). -/
def availableHeightOf (dims : Dimensions) : ℚ :=
  dims.HEIGHT - dims.padding.top - dims.padding.bottom - 20 - 25 - 10

/-- `daysPerPage = Math.floor(availableHeight / minLineHeight)`
(`bujo-monthly.ts` line 28). -/
def daysPerPageOf (dims : Dimensions) (density : Density) : ℤ :=
  ⌊availableHeightOf dims / minLineHeightOf density⌋

/-- `calendarPages = Math.ceil(daysInMonth / daysPerPage)` (`bujo-monthly.ts`
line 31), modelled for a positive `daysPerPage` (with `daysPerPage ≤ 0` the
source's loop would not terminate; all theorems assume at least one row fits
per page). -/
def calendarPagesOf (dims : Dimensions) (density : Density) (daysInMonth : Nat) : ℤ :=
  ⌈(daysInMonth : ℚ) / ((daysPerPageOf dims density : ℤ) : ℚ)⌉

/-- `needsSplit = calendarPages > 1 || (daysInMonth * preferredLineHeight >
availableHeight)` (`bujo-monthly.ts` line 32). -/
def needsSplitOf (dims : Dimensions) (density : Density) (daysInMonth : Nat) : Bool :=
  decide (1 < calendarPagesOf dims density daysInMonth)
    || decide (availableHeightOf dims < (daysInMonth : ℚ) * density.lineHeight)

/-- The y returned by `drawTopNavigation` (`page-utils.ts` line 128):
`navY - navFontSize - 6`. -/
def navReturnYOf (dims : Dimensions) : ℚ := pageUtilsNavY dims - 7 - 6

/-- `contentTop` of a monthly page: `drawPageTitle(page, title, font, dims,
colors, navY, 11)` returns `startY - fontSize - 8` (`page-utils.ts`
line 151), reproduced literally in `addMonthlyDateLinks` (`navigation.ts`
lines 482–485). -/
def contentTopOf (dims : Dimensions) : ℚ := navReturnYOf dims - 11 - 8

/-- The per-row drawing walk on one calendar page (`bujo-monthly.ts` lines
68–101 and 167–200): starting at `y`, each drawn row advances `y` by
`-lineHeight`, so row `i` sits at `y - i * lineHeight`. -/
def genRowsPage (day : Nat) (y lh : ℚ) : Nat → List (Nat × ℚ)
  | 0 => []
  | k + 1 => (day, y) :: genRowsPage (day + 1) (y - lh) lh k

/-- One generated calendar page of a split month: its day count, row height
and drawn `(day, y)` rows. -/
structure GenCalPage where
  daysOnPage : Nat
  lineHeight : ℚ
  rows : List (Nat × ℚ)
deriving DecidableEq, Repr

/-- The `while (dayIndex <= daysInMonth)` calendar-page loop of the split
branch of `generateMonthlyLog` (`bujo-monthly.ts` lines 50–117): each page
holds `daysOnThisPage = min(daysPerPage, daysInMonth - dayIndex + 1)` rows at
height `max(minLineHeight, availableHeight / daysOnThisPage)`, rows starting
at `contentTop`.  With `daysPerPage = 0` the source loop would not terminate;
the model returns `[]` in that (excluded by every theorem) case. -/
def genCalPages (dpp : Nat) (minLH avail top : ℚ) (N : Nat) (dayIndex : Nat) :
    List GenCalPage :=
  if _h1 : N < dayIndex then []
  else if _h2 : dpp = 0 then []
  else
    let k := min dpp (N + 1 - dayIndex)
    let lh := max minLH (avail / (k : ℚ))
    ⟨k, lh, genRowsPage dayIndex top lh k⟩ ::
      genCalPages dpp minLH avail top N (dayIndex + k)
termination_by N + 1 - dayIndex
decreasing_by
  omega

/-- The layout produced by `generateMonthlyLog` for one month: either split
calendar pages (plus a separate tasks page, not modelled here) or a single
combined calendar+tasks page. -/
inductive MonthlyLayout where
  | split (pages : List GenCalPage)
  | combined (lineHeight : ℚ) (rows : List (Nat × ℚ))
deriving DecidableEq, Repr

/-- The layout decision and calendar-row geometry of `generateMonthlyLog`
(`bujo-monthly.ts` lines 45–254): the split branch paginates the rows as in
`genCalPages`; the combined branch draws all days on one page at
`min(preferredLineHeight, (contentTop - padding.bottom - 10) / daysInMonth)`. -/
def generateMonthlyLayout (dims : Dimensions) (density : Density)
    (daysInMonth : Nat) : MonthlyLayout :=
  if needsSplitOf dims density daysInMonth then
    MonthlyLayout.split
      (genCalPages (daysPerPageOf dims density).toNat (minLineHeightOf density)
        (availableHeightOf dims) (contentTopOf dims) daysInMonth 1)
  else
    let lh := min density.lineHeight
      ((contentTopOf dims - dims.padding.bottom - 10) / (daysInMonth : ℚ))
    MonthlyLayout.combined lh (genRowsPage 1 (contentTopOf dims) lh daysInMonth)

/-- Projection of the layout's single-page row height, used to state the C5
counterexample without spelling out the drawn row list. -/
def layoutRowHeight : MonthlyLayout → Option ℚ
  | .split _ => none
  | .combined lh _ => some lh

/-- Page count of the split loop: with `dpp ≥ 1` rows per page, starting at
`dayIndex`, the loop emits `⌈(N + 1 - dayIndex) / dpp⌉` pages (fuel-indexed
strong induction). -/
theorem genCalPages_length (dpp : Nat) (minLH avail top : ℚ) (N : Nat)
    (hdpp : 1 ≤ dpp) :
    ∀ (fuel dayIndex : Nat), N + 1 - dayIndex ≤ fuel →
      (genCalPages dpp minLH avail top N dayIndex).length
        = (N + 1 - dayIndex + dpp - 1) / dpp := by
  intro fuel
  induction fuel with
  | zero =>
    intro dayIndex hf
    rw [genCalPages.eq_def]
    rw [dif_pos (by omega)]
    have h0 : N + 1 - dayIndex = 0 := by omega
    rw [h0]
    simp only [List.length_nil]
    symm
    exact Nat.div_eq_of_lt (by omega)
  | succ fuel ih =>
    intro dayIndex hf
    by_cases hlt : N < dayIndex
    · rw [genCalPages.eq_def]
      rw [dif_pos hlt]
      have h0 : N + 1 - dayIndex = 0 := by omega
      rw [h0]
      simp only [List.length_nil]
      symm
      exact Nat.div_eq_of_lt (by omega)
    · rw [genCalPages.eq_def]
      rw [dif_neg hlt, dif_neg (by omega : ¬ dpp = 0)]
      simp only [List.length_cons]
      rw [ih (dayIndex + min dpp (N + 1 - dayIndex)) (by omega)]
      have hr1 : 1 ≤ N + 1 - dayIndex := by omega
      have hk : N + 1 - (dayIndex + min dpp (N + 1 - dayIndex))
          = N + 1 - dayIndex - min dpp (N + 1 - dayIndex) := by omega
      rw [hk]
      rcases le_or_lt dpp (N + 1 - dayIndex) with hdr | hdr
      · rw [min_eq_left hdr]
        have key : N + 1 - dayIndex + dpp - 1 = (N + 1 - dayIndex - dpp + dpp - 1) + dpp := by
          omega
        rw [key, Nat.add_div_right _ (by omega : 0 < dpp)]
      · rw [min_eq_right (by omega : N + 1 - dayIndex ≤ dpp)]
        have h2 : N + 1 - dayIndex - (N + 1 - dayIndex) = 0 := by omega
        rw [h2]
        have hlhs : (0 + dpp - 1) / dpp = 0 := Nat.div_eq_of_lt (by omega)
        have hrhs : (N + 1 - dayIndex + dpp - 1) / dpp = 1 :=
          Nat.div_eq_of_lt_le (by omega) (by omega)
        rw [hlhs, hrhs]

/-- Shape of every page emitted by the split loop: between 1 and `dpp` rows,
at row height `max(minLineHeight, availableHeight / rows)`, with the rows
drawn from `contentTop` by `genRowsPage`. -/
theorem genCalPages_mem (dpp : Nat) (minLH avail top : ℚ) (N : Nat)
    (hdpp : 1 ≤ dpp) :
    ∀ (fuel dayIndex : Nat), N + 1 - dayIndex ≤ fuel →
      ∀ p ∈ genCalPages dpp minLH avail top N dayIndex,
        1 ≤ p.daysOnPage ∧ p.daysOnPage ≤ dpp
          ∧ p.lineHeight = max minLH (avail / (p.daysOnPage : ℚ)) := by
  intro fuel
  induction fuel with
  | zero =>
    intro dayIndex hf p hp
    rw [genCalPages.eq_def] at hp
    rw [dif_pos (by omega)] at hp
    simp at hp
  | succ fuel ih =>
    intro dayIndex hf p hp
    by_cases hlt : N < dayIndex
    · rw [genCalPages.eq_def] at hp
      rw [dif_pos hlt] at hp
      simp at hp
    · rw [genCalPages.eq_def] at hp
      rw [dif_neg hlt, dif_neg (by omega : ¬ dpp = 0)] at hp
      simp only [List.mem_cons] at hp
      rcases hp with rfl | hp
      · refine ⟨?_, ?_, rfl⟩
        · show 1 ≤ min dpp (N + 1 - dayIndex)
          omega
        · show min dpp (N + 1 - dayIndex) ≤ dpp
          omega
      · exact ih (dayIndex + min dpp (N + 1 - dayIndex)) (by omega) p hp

/-- A clickable date link emitted by `addMonthlyDateLinks`: the source page,
the calendar day it covers, the rect, and the destination page index. -/
structure DateLink where
  sourcePage : Nat
  day : Nat
  x : ℚ
  y : ℚ
  width : ℚ
  height : ℚ
  target : Nat
deriving DecidableEq, Repr

/-- The inner day loop of `addMonthlyDateLinks` on one physical page
(`navigation.ts` lines 492–509, identically 524–540): walk the days from `y`
stepping `-lineHeight`; for each day whose date key is in
`registry.dailyPages` emit a rect `(padding.left - 2, y - 2, 28,
fontSize + 4)` targeting that daily page, and emit nothing otherwise.
`lookup` is the `registry.dailyPages.get(dateKey)` lookup for this month. -/
def linkRowsPage (pg : Nat) (left fontSize : ℚ) (lookup : Nat → Option Nat)
    (day : Nat) (y lh : ℚ) : Nat → List DateLink
  | 0 => []
  | count + 1 =>
    let rest := linkRowsPage pg left fontSize lookup (day + 1) (y - lh) lh count
    match lookup day with
    | some p => ⟨pg, day, left - 2, y - 2, 28, fontSize + 4, p⟩ :: rest
    | none => rest

/-- The `for (const pageRef of monthPages)` loop of the split branch of
`addMonthlyDateLinks` (`navigation.ts` lines 477–510): per page,
`daysOnThisPage = min(daysPerPage, daysInMonth - dayIndex + 1)` and
`lineHeight = max(minLineHeight, availableHeight / daysOnThisPage)`, then the
inner day loop from `contentTop`. -/
def linkCalPages (dpp : Nat) (minLH avail top left fontSize : ℚ) (N : Nat)
    (lookup : Nat → Option Nat) : List Nat → Nat → List DateLink
  | [], _ => []
  | pg :: rest, dayIndex =>
    let k := min dpp (N + 1 - dayIndex)
    let lh := max minLH (avail / (k : ℚ))
    linkRowsPage pg left fontSize lookup dayIndex top lh k
      ++ linkCalPages dpp minLH avail top left fontSize N lookup rest (dayIndex + k)

/-- `addMonthlyDateLinks` restricted to the pages of one `yearMonth` group
(`navigation.ts` lines 463–543): recompute the layout inputs, re-derive the
split/combined decision as `monthPages.length > 1 || daysInMonth *
preferredLineHeight > availableHeight`, and emit the date links page by page
(split) or on the single combined page (`monthPages[0]`). -/
def addMonthlyDateLinksModel (dims : Dimensions) (density : Density)
    (daysInMonth : Nat) (monthPages : List Nat) (lookup : Nat → Option Nat) :
    List DateLink :=
  let minLH := minLineHeightOf density
  let avail := availableHeightOf dims
  let top := contentTopOf dims
  let dpp := (daysPerPageOf dims density).toNat
  let isSplit : Bool := decide (1 < monthPages.length)
    || decide (avail < (daysInMonth : ℚ) * density.lineHeight)
  if isSplit then
    linkCalPages dpp minLH avail top dims.padding.left density.fontSize daysInMonth
      lookup monthPages 1
  else
    match monthPages with
    | [] => []
    | pg :: _ =>
      let lh := min density.lineHeight
        ((top - dims.padding.bottom - 10) / (daysInMonth : ℚ))
      linkRowsPage pg dims.padding.left density.fontSize lookup 1 top lh daysInMonth

/-- The links mandated by the generator's drawn rows: walking the physical
pages and the generated calendar pages in step, each drawn `(day, y)` row
whose day has a daily page yields one rect over that row on that physical
page, targeting the daily page. -/
def expectedLinks (left fontSize : ℚ) (lookup : Nat → Option Nat) :
    List Nat → List GenCalPage → List DateLink
  | [], _ => []
  | _, [] => []
  | pg :: mps, p :: ps =>
    p.rows.filterMap
        (fun r => (lookup r.1).map
          (fun t => ⟨pg, r.1, left - 2, r.2 - 2, 28, fontSize + 4, t⟩))
      ++ expectedLinks left fontSize lookup mps ps

/-- The expected links determined by the generator's layout: zipped over the
split pages, or over the single combined page's rows. -/
def expectedLinksOfLayout (dims : Dimensions) (density : Density)
    (lookup : Nat → Option Nat) (monthPages : List Nat) :
    MonthlyLayout → List DateLink
  | .split ps => expectedLinks dims.padding.left density.fontSize lookup monthPages ps
  | .combined _ rows =>
    match monthPages with
    | [] => []
    | pg :: _ =>
      rows.filterMap
        (fun r => (lookup r.1).map
          (fun t => ⟨pg, r.1, dims.padding.left - 2, r.2 - 2, 28,
            density.fontSize + 4, t⟩))

/-- The number of physical calendar pages the generator emits for a month:
the split page count, or 1 for the combined layout.  `addMonthlyDateLinks`
receives exactly these pages, grouped from the generated refs by `yearMonth`
in generation order. -/
def monthlyCalPageCount (dims : Dimensions) (density : Density) (N : Nat) : Nat :=
  match generateMonthlyLayout dims density N with
  | .split ps => ps.length
  | .combined _ _ => 1

/-- The link pass's inner day loop places a link exactly over each drawn row
whose day has a daily page. -/
theorem linkRowsPage_eq_filterMap (pg : Nat) (left fontSize : ℚ)
    (lookup : Nat → Option Nat) :
    ∀ (count day : Nat) (y lh : ℚ),
      linkRowsPage pg left fontSize lookup day y lh count
        = (genRowsPage day y lh count).filterMap
            (fun r => (lookup r.1).map
              (fun t => ⟨pg, r.1, left - 2, r.2 - 2, 28, fontSize + 4, t⟩)) := by
  intro count
  induction count with
  | zero => intro day y lh; simp [linkRowsPage, genRowsPage]
  | succ c ih =>
    intro day y lh
    simp only [linkRowsPage, genRowsPage, List.filterMap_cons, ih]
    cases h : lookup day <;> simp [h]

/-- The link pass's page loop reproduces the generator's page loop: when the
physical page list is as long as the generated page list, the emitted links
are exactly the expected ones (same per-page day count and row height, hence
the same row rectangles). -/
theorem linkCalPages_eq_expected (dpp : Nat) (minLH avail top left fontSize : ℚ)
    (N : Nat) (lookup : Nat → Option Nat) (hdpp : 1 ≤ dpp) :
    ∀ (monthPages : List Nat) (dayIndex : Nat),
      monthPages.length = (genCalPages dpp minLH avail top N dayIndex).length →
      linkCalPages dpp minLH avail top left fontSize N lookup monthPages dayIndex
        = expectedLinks left fontSize lookup monthPages
            (genCalPages dpp minLH avail top N dayIndex) := by
  intro monthPages
  induction monthPages with
  | nil =>
    intro dayIndex hlen
    cases genCalPages dpp minLH avail top N dayIndex <;>
      simp [linkCalPages, expectedLinks]
  | cons pg rest ih =>
    intro dayIndex hlen
    by_cases hlt : N < dayIndex
    · rw [genCalPages.eq_def, dif_pos hlt] at hlen
      simp at hlen
    · have hgen : genCalPages dpp minLH avail top N dayIndex
          = ⟨min dpp (N + 1 - dayIndex),
              max minLH (avail / ((min dpp (N + 1 - dayIndex) : Nat) : ℚ)),
              genRowsPage dayIndex top
                (max minLH (avail / ((min dpp (N + 1 - dayIndex) : Nat) : ℚ)))
                (min dpp (N + 1 - dayIndex))⟩
            :: genCalPages dpp minLH avail top N
                (dayIndex + min dpp (N + 1 - dayIndex)) := by
        rw [genCalPages.eq_def]
        rw [dif_neg hlt, dif_neg (by omega : ¬ dpp = 0)]
      rw [hgen] at hlen ⊢
      simp only [List.length_cons, Nat.add_right_cancel_iff] at hlen
      simp only [linkCalPages, expectedLinks]
      rw [linkRowsPage_eq_filterMap, ih _ hlen]

/-- With a line height of at least `5/3` (all shipped density profiles have
14, 18 or 24), the derived `Math.round(lineHeight * 0.7)` is positive. -/
theorem minLineHeight_pos (density : Density)
    (hlh : (5 : ℚ) / 3 ≤ density.lineHeight) :
    (0 : ℚ) < minLineHeightOf density := by
  unfold minLineHeightOf jsRound
  have h1 : (1 : ℤ) ≤ ⌊density.lineHeight * (7 / 10) + 1 / 2⌋ := by
    rw [Int.le_floor]
    push_cast
    linarith
  exact_mod_cast lt_of_lt_of_le Int.zero_lt_one h1

/-- With a line height of at least `5/3`, the derived minimum row height is
at most the preferred one. -/
theorem minLineHeight_le (density : Density)
    (hlh : (5 : ℚ) / 3 ≤ density.lineHeight) :
    minLineHeightOf density ≤ density.lineHeight := by
  unfold minLineHeightOf jsRound
  have h1 : ((⌊density.lineHeight * (7 / 10) + 1 / 2⌋ : ℤ) : ℚ)
      ≤ density.lineHeight * (7 / 10) + 1 / 2 := Int.floor_le _
  linarith

/-- At least one row fits per page whenever the minimum row height is
positive and fits within the available height. -/
theorem daysPerPage_ge_one (dims : Dimensions) (density : Density)
    (hminpos : (0 : ℚ) < minLineHeightOf density)
    (hfits : minLineHeightOf density ≤ availableHeightOf dims) :
    (1 : ℤ) ≤ daysPerPageOf dims density := by
  unfold daysPerPageOf
  rw [Int.le_floor]
  push_cast
  rw [le_div_iff₀ hminpos]
  linarith

/-- A link rectangle as passed to `createInternalLink` (`hyperlinks.ts`,
`LinkRect`): origin bottom-left, y increasing upward. -/
structure LinkRect where
  x : ℚ
  y : ℚ
  width : ℚ
  height : ℚ
deriving DecidableEq, Repr

/-- A PDF link annotation as built by `createInternalLink` (`hyperlinks.ts`
lines 14–43): subtype `Link`, rect `[x, y, x + width, y + height]`, border
`[0, 0, 0]`, and destination `[targetPageRef, 'XYZ', null, null, null]` — the
page object resolved from `pdfDoc.getPage(targetPageIndex)` plus an `XYZ`
directive whose left/top/zoom entries are all `null`. -/
structure LinkAnnot where
  subtypeLink : Bool
  rectX1 : ℚ
  rectY1 : ℚ
  rectX2 : ℚ
  rectY2 : ℚ
  border : List ℚ
  destPage : Option Nat
  destKindXYZ : Bool
  destLeft : Option ℚ
  destTop : Option ℚ
  destZoom : Option ℚ
deriving DecidableEq, Repr

/-- `createInternalLink` from `hyperlinks.ts`: resolve the destination page
object immediately (`pdfDoc.getPage(targetPageIndex)` — modelled as the page
id at that position) and register the annotation dictionary on the source
page. -/
def createInternalLink (pages : List Nat) (rect : LinkRect)
    (targetPageIndex : Nat) : LinkAnnot where
  subtypeLink := true
  rectX1 := rect.x
  rectY1 := rect.y
  rectX2 := rect.x + rect.width
  rectY2 := rect.y + rect.height
  border := [0, 0, 0]
  destPage := pages.get? targetPageIndex
  destKindXYZ := true
  destLeft := none
  destTop := none
  destZoom := none

/-- The operation alphabet of `addBujoIndex` (`index.ts` lines 198–494) as it
touches the document: `createIndexPage` inserts a fresh page at
`insertOffset + indexPageCount` and increments the count (lines 122–132
with the call sites at 225, 315, 379, 398, 457), and `addLink t` emits an
entry link to the content page of pre-shift index `t`, targeting
`pdfDoc.getPage(targetIdx + indexPageCount)` with the count as of emission
time (lines 236–243). -/
inductive IndexOp where
  | newIndexPage
  | emitLink (targetIdx : Nat)
deriving DecidableEq, Repr

/-- Builder state while `addBujoIndex` runs: the document's pages as a list
of page-object ids, the running `indexPageCount`, the emitted links (pre-shift
target paired with the resolved destination page object), and a fresh-id
counter for newly inserted pages. -/
structure BuilderState where
  pages : List Nat
  count : Nat
  links : List (Nat × Option Nat)
  nextId : Nat
deriving DecidableEq, Repr

/-- `pdfDoc.insertPage(i, ...)`: insert at position `i`, shifting the pages
at `i` and beyond one position later. -/
def insertAt : List Nat → Nat → Nat → List Nat
  | l, 0, a => a :: l
  | [], _ + 1, a => [a]
  | x :: xs, n + 1, a => x :: insertAt xs n a

/-- One `addBujoIndex` operation over the document.  `emitLink` resolves the
destination page object immediately, exactly as `createInternalLink` does. -/
def bujoIndexStep (insertOffset : Nat) (s : BuilderState) : IndexOp → BuilderState
  | .newIndexPage =>
    { s with
      pages := insertAt s.pages (insertOffset + s.count) s.nextId
      count := s.count + 1
      nextId := s.nextId + 1 }
  | .emitLink t =>
    { s with links := s.links ++ [(t, s.pages.get? (t + s.count))] }

/-- Run an `addBujoIndex` operation trace from the assembled content
document: cover pages (positions `0 … insertOffset - 1` with
`insertOffset = cover.length`) followed by the content pages, no index pages
yet, no links. -/
def runBujoIndex (insertOffset : Nat) (cover content : List Nat) (nid : Nat)
    (ops : List IndexOp) : BuilderState :=
  ops.foldl (bujoIndexStep insertOffset) ⟨cover ++ content, 0, [], nid⟩

theorem insertAt_append (l1 l2 : List Nat) (a : Nat) :
    insertAt (l1 ++ l2) l1.length a = l1 ++ a :: l2 := by
  induction l1 with
  | nil => cases l2 <;> rfl
  | cons x xs ih => simp [insertAt, ih]

/-- Invariant of the `addBujoIndex` run: the document is always
`cover ++ (index pages so far) ++ content`, the index-page segment's length
is `indexPageCount`, and every emitted link stores the content page object at
its pre-shift offset. -/
theorem foldl_bujoIndexStep_spec (cover content : List Nat) (ops : List IndexOp) :
    ∀ (s : BuilderState) (idxIds : List Nat),
      s.pages = cover ++ idxIds ++ content →
      idxIds.length = s.count →
      (∀ t, IndexOp.emitLink t ∈ ops →
        cover.length ≤ t ∧ t < cover.length + content.length) →
      ∃ idxIds2 : List Nat,
        (ops.foldl (bujoIndexStep cover.length) s).pages = cover ++ idxIds2 ++ content
        ∧ idxIds2.length = (ops.foldl (bujoIndexStep cover.length) s).count
        ∧ ∀ pr ∈ (ops.foldl (bujoIndexStep cover.length) s).links,
            pr ∈ s.links
            ∨ (pr.2 = content.get? (pr.1 - cover.length)
                ∧ cover.length ≤ pr.1 ∧ pr.1 < cover.length + content.length) := by
  induction ops with
  | nil =>
    intro s idxIds hpages hlen _hops
    exact ⟨idxIds, hpages, hlen, fun pr hpr => Or.inl hpr⟩
  | cons op rest ih =>
    intro s idxIds hpages hlen hops
    cases op with
    | newIndexPage =>
      have hstep : (bujoIndexStep cover.length s IndexOp.newIndexPage).pages
          = cover ++ (idxIds ++ [s.nextId]) ++ content := by
        simp only [bujoIndexStep, hpages]
        have hpos : cover.length + s.count = (cover ++ idxIds).length := by
          simp [hlen]
        calc insertAt (cover ++ idxIds ++ content) (cover.length + s.count) s.nextId
            = insertAt ((cover ++ idxIds) ++ content) ((cover ++ idxIds).length)
                s.nextId := by rw [hpos]
          _ = (cover ++ idxIds) ++ s.nextId :: content := insertAt_append _ _ _
          _ = cover ++ (idxIds ++ [s.nextId]) ++ content := by simp
      obtain ⟨idxIds2, h1, h2, h3⟩ := ih (bujoIndexStep cover.length s .newIndexPage)
        (idxIds ++ [s.nextId]) hstep
        (by simp [bujoIndexStep, hlen])
        (fun t ht => hops t (List.mem_cons_of_mem _ ht))
      refine ⟨idxIds2, h1, h2, fun pr hpr => ?_⟩
      rcases h3 pr hpr with hmem | hnew
      · exact Or.inl (by simpa [bujoIndexStep] using hmem)
      · exact Or.inr hnew
    | emitLink t =>
      have htr := hops t (List.mem_cons_self _ _)
      have hget : s.pages.get? (t + s.count) = content.get? (t - cover.length) := by
        rw [hpages]
        simp only [List.get?_eq_getElem?]
        rw [List.getElem?_append_right
          (by simp [hlen]; omega : (cover ++ idxIds).length ≤ t + s.count)]
        congr 1
        simp [hlen]
        omega
      obtain ⟨idxIds2, h1, h2, h3⟩ := ih (bujoIndexStep cover.length s (.emitLink t))
        idxIds (by simpa [bujoIndexStep] using hpages)
        (by simpa [bujoIndexStep] using hlen)
        (fun t2 ht2 => hops t2 (List.mem_cons_of_mem _ ht2))
      refine ⟨idxIds2, h1, h2, fun pr hpr => ?_⟩
      rcases h3 pr hpr with hmem | hnew
      · simp only [bujoIndexStep, List.mem_append, List.mem_singleton] at hmem
        rcases hmem with hmem | hmem
        · exact Or.inl hmem
        · subst hmem
          exact Or.inr ⟨by simpa using hget, by simpa using htr.1, by simpa using htr.2⟩
      · exact Or.inr hnew

/-- The content generators' page-append discipline (`generateBujoPages` and
every section generator: `pdfDoc.addPage(...)` followed by
`pageIndex = pdfDoc.getPageCount() - 1`): with `startCount` pages already in
the document, the i-th generated content ref gets
`pageIndex = startCount + i`. -/
def genContentRefs (startCount : Nat) : List PageType → List PageRef
  | [] => []
  | t :: ts =>
    { label := "", pageIndex := startCount, type := t }
      :: genContentRefs (startCount + 1) ts

/-- The index-insertion shift applied by `generatePlannerPDF` after
`addBujoIndex` returns (`pdf-generator.ts`: `for (const ref of bujoPageRefs)
ref.pageIndex += indexPageCount`). -/
def applyIndexShift (indexPageCount : Nat) (refs : List PageRef) : List PageRef :=
  refs.map (fun r => { r with pageIndex := r.pageIndex + indexPageCount })

end Bujo

open Bujo in
/-- C9: every internal link annotation registered by the link emitter
(`createInternalLink`) is an invisible, borderless clickable rectangle —
border `[0, 0, 0]`, zero width — over `[x, y, x+w, y+h]`, whose destination
directive references the document's page object at the target index with the
`XYZ` left/top/zoom entries all `null` (the spec's "jump to top-left corner
of the destination page with no zoom change" directive). -/
theorem C9_links_invisible_borderless_xyz (pages : List Nat) (rect : LinkRect)
    (t : Nat) :
    (createInternalLink pages rect t).subtypeLink = true
    ∧ (createInternalLink pages rect t).border = [0, 0, 0]
    ∧ (createInternalLink pages rect t).rectX1 = rect.x
    ∧ (createInternalLink pages rect t).rectY1 = rect.y
    ∧ (createInternalLink pages rect t).rectX2 = rect.x + rect.width
    ∧ (createInternalLink pages rect t).rectY2 = rect.y + rect.height
    ∧ (createInternalLink pages rect t).destPage = pages.get? t
    ∧ (createInternalLink pages rect t).destKindXYZ = true
    ∧ (createInternalLink pages rect t).destLeft = none
    ∧ (createInternalLink pages rect t).destTop = none
    ∧ (createInternalLink pages rect t).destZoom = none :=
  ⟨rfl, rfl, rfl, rfl, rfl, rfl, rfl, rfl, rfl, rfl, rfl⟩

open Bujo in
/-- C3: every entry link emitted on an index page during `addBujoIndex` —
whatever the interleaving of page allocations and link emissions, i.e.
regardless of how many index pages existed at the moment the link was
emitted — resolves (the emitter targets `getPage(t + indexPageCount)` and
`createInternalLink` stores the page object), and in the fully assembled
document its destination page object sits exactly at position `t + M`, the
referenced content page's pre-shift `pageIndex` plus the final total number
`M` of index pages. -/
theorem C3_index_entry_links_hit_final_positions (cover content : List Nat)
    (nid : Nat) (ops : List IndexOp)
    (hops : ∀ t, IndexOp.emitLink t ∈ ops →
      cover.length ≤ t ∧ t < cover.length + content.length) :
    ∀ pr ∈ (runBujoIndex cover.length cover content nid ops).links,
      pr.2.isSome
      ∧ (runBujoIndex cover.length cover content nid ops).pages.get?
          (pr.1 + (runBujoIndex cover.length cover content nid ops).count)
        = pr.2 := by
  obtain ⟨idxIds, hpages, hlen, hlinks⟩ :=
    foldl_bujoIndexStep_spec cover content ops ⟨cover ++ content, 0, [], nid⟩ []
      (by simp) rfl hops
  intro pr hpr
  unfold runBujoIndex at hpr ⊢
  rcases hlinks pr hpr with hmem | ⟨hval, hlo, hhi⟩
  · simp at hmem
  · have hidx : pr.1 - cover.length < content.length := by omega
    have hsome : (content.get? (pr.1 - cover.length)).isSome := by
      rw [List.get?_eq_getElem?, List.getElem?_eq_getElem hidx]
      rfl
    refine ⟨by rw [hval]; exact hsome, ?_⟩
    rw [hpages, hval]
    simp only [List.get?_eq_getElem?]
    rw [List.getElem?_append_right (by simp; omega)]
    congr 1
    simp
    omega

open Bujo in
/-- C3 witness: cover page `[0]`, content pages `[10, 20, 30]`
(pre-shift indices 1, 2, 3); the trace allocates an index page, links
content page 1, allocates a second index page, then links content page 3.
The first link, emitted while only one index page existed, still lands on
the page object sitting at final position `1 + M = 3`. -/
theorem C3_witness :
    (((1 : Nat), some 10) ∈ (runBujoIndex 1 [0] [10, 20, 30] 100
        [IndexOp.newIndexPage, IndexOp.emitLink 1, IndexOp.newIndexPage,
          IndexOp.emitLink 3]).links)
    ∧ (runBujoIndex 1 [0] [10, 20, 30] 100
        [IndexOp.newIndexPage, IndexOp.emitLink 1, IndexOp.newIndexPage,
          IndexOp.emitLink 3]).pages.get?
        (1 + (runBujoIndex 1 [0] [10, 20, 30] 100
          [IndexOp.newIndexPage, IndexOp.emitLink 1, IndexOp.newIndexPage,
            IndexOp.emitLink 3]).count) = some 10 := by
  have hops : ∀ t, IndexOp.emitLink t ∈
      [IndexOp.newIndexPage, IndexOp.emitLink 1, IndexOp.newIndexPage,
        IndexOp.emitLink 3] →
      ([0] : List Nat).length ≤ t ∧ t < ([0] : List Nat).length
        + ([10, 20, 30] : List Nat).length := by
    intro t ht
    simp only [List.mem_cons, List.not_mem_nil, or_false] at ht
    rcases ht with h | h | h | h <;> simp_all
  refine ⟨by decide, ?_⟩
  exact (C3_index_entry_links_hit_final_positions [0] [10, 20, 30] 100
    [IndexOp.newIndexPage, IndexOp.emitLink 1, IndexOp.newIndexPage,
      IndexOp.emitLink 3] hops ((1 : Nat), some 10) (by decide)).2

open Bujo in
/-- C2: index-shift correctness.  When `addBujoIndex` allocates `M` index
pages and `generatePlannerPDF` then adds `M` to every generated content
reference, the reference whose pre-shift content position is `i` (appended
when the document already held `insertOffset` pages, hence with pre-shift
`pageIndex = insertOffset + i`) ends with final registered
`pageIndex = insertOffset + M + i`. -/
theorem C2_index_shift_correctness (types : List PageType)
    (insertOffset M i : Nat) (hi : i < types.length) :
    ((applyIndexShift M (genContentRefs insertOffset types)).get? i).map
        (·.pageIndex)
      = some (insertOffset + M + i) := by
  induction types generalizing insertOffset i with
  | nil => simp at hi
  | cons t ts ih =>
    cases i with
    | zero => simp [genContentRefs, applyIndexShift]
    | succ j =>
      have hj := ih (insertOffset + 1) j (by simpa using hi)
      simp only [genContentRefs, applyIndexShift, List.map_cons, List.get?_cons_succ]
      simp only [applyIndexShift] at hj
      rw [hj]
      congr 1
      omega

open Bujo in
/-- C2 witness, the spec's concrete scenario: one key page, one future-log
page and two monthly pages appended after the cover (`insertOffset = 1`),
then an index of `M = 2` pages; the key page (content position 0) ends at
final `pageIndex = 1 + 2 + 0 = 3`, and the rebuilt registry's `keyPage` is 3. -/
theorem C2_witness :
    ((0 : Nat) < ([PageType.key, PageType.future, PageType.monthly,
        PageType.monthly] : List PageType).length)
    ∧ ((applyIndexShift 2 (genContentRefs 1
          [PageType.key, PageType.future, PageType.monthly,
            PageType.monthly])).get? 0).map (·.pageIndex) = some 3
    ∧ (buildPageRegistry (applyIndexShift 2 (genContentRefs 1
          [PageType.key, PageType.future, PageType.monthly,
            PageType.monthly])) 1).keyPage = some 3 := by
  refine ⟨by decide, ?_, by decide⟩
  exact C2_index_shift_correctness
    [PageType.key, PageType.future, PageType.monthly, PageType.monthly] 1 2 0
    (by decide)

open Bujo in
/-- C7: `resolveNavTarget` returns no target (`undefined`) for a `prev` item
when the current page is the first entry of `pagesByType` for its type, and
for a `next` item when the current page is the last entry (per-type page
lists are duplicate-free in a built registry, which the `next` case assumes);
it never wraps around to the opposite end of the list. -/
theorem C7_prev_next_boundary (item : NavItem) (ref : PageRef) (reg : PageRegistry) :
    (item.targetType = TargetType.prev →
      (reg.pagesByType ref.type).head? = some ref.pageIndex →
      resolveNavTarget item ref reg = none)
    ∧ (item.targetType = TargetType.next →
      (reg.pagesByType ref.type).getLast? = some ref.pageIndex →
      (reg.pagesByType ref.type).Nodup →
      resolveNavTarget item ref reg = none) := by
  constructor
  · intro ht hh
    cases hl : reg.pagesByType ref.type with
    | nil => simp [hl] at hh
    | cons a as =>
      have ha : a = ref.pageIndex := by
        rw [hl] at hh
        simpa using hh
      subst ha
      simp [resolveNavTarget, ht, hl, List.indexOf_cons_self]
  · intro ht hlast hnd
    have hne : reg.pagesByType ref.type ≠ [] := by
      intro h
      rw [h] at hlast
      simp at hlast
    have hg := List.getLast?_eq_getLast_of_ne_nil hne
    rw [hlast] at hg
    have hgl : (reg.pagesByType ref.type).getLast hne = ref.pageIndex :=
      (Option.some.injEq _ _ ▸ hg).symm
    have hmem : ref.pageIndex ∈ reg.pagesByType ref.type := hgl ▸ List.getLast_mem hne
    have hidx : (reg.pagesByType ref.type).indexOf ref.pageIndex =
        (reg.pagesByType ref.type).length - 1 := by
      rw [← hgl]
      exact indexOf_getLast_nodup _ hne hnd
    have hlen : 1 ≤ (reg.pagesByType ref.type).length := List.length_pos.mpr hne
    have hnolt : ¬ ((reg.pagesByType ref.type).length - 1 + 1
        < (reg.pagesByType ref.type).length) := by omega
    simp [resolveNavTarget, ht, hmem, hidx, hnolt]

/-- A small concrete registry — three monthly pages at indices 3, 5, 9 — used
to witness C7 at its boundaries. -/
def c7SampleRegistry : Bujo.PageRegistry where
  indexPage := 1
  futureLogPages := []
  monthlyCalPages := []
  monthlyTasksPages := []
  weeklyPages := []
  dailyPages := []
  collectionPages := []
  keyPage := none
  pagesByType := fun t => if t = Bujo.PageType.monthly then [3, 5, 9] else []

open Bujo in
/-- C7 witness: `prev` on the first monthly page and `next` on the last
monthly page both resolve to no target. -/
theorem C7_witness :
    ((c7SampleRegistry.pagesByType PageType.monthly).head? = some 3
      ∧ resolveNavTarget ⟨"<", TargetType.prev, none⟩
          { label := "March", pageIndex := 3, type := PageType.monthly }
          c7SampleRegistry = none)
    ∧ ((c7SampleRegistry.pagesByType PageType.monthly).getLast? = some 9
      ∧ (c7SampleRegistry.pagesByType PageType.monthly).Nodup
      ∧ resolveNavTarget ⟨">", TargetType.next, none⟩
          { label := "May", pageIndex := 9, type := PageType.monthly }
          c7SampleRegistry = none) := by
  refine ⟨⟨by decide, ?_⟩, by decide, by decide, ?_⟩
  · exact (C7_prev_next_boundary _ _ _).1 rfl (by decide)
  · exact (C7_prev_next_boundary _ _ _).2 rfl (by decide) (by decide)

open Bujo in
/-- C8: for every page and every navigation item on it, the link emitter
(`addComprehensiveNavigation`) creates a clickable region if and only if
`resolveNavTarget` returns a page index for that item: the emitted link list
is exactly the `filterMap` of the resolver over the items at their accumulated
x positions, so an unresolvable item's link is omitted entirely and no default
destination is ever substituted. -/
theorem C8_link_iff_resolvable (fw : String → ℚ) (dims : Dimensions)
    (ref : PageRef) (reg : PageRegistry) :
    compNavLinksForPage fw dims ref reg =
      (compNavPositions fw (getNavItemsForPage ref reg) dims.padding.left).filterMap
        (fun p =>
          (resolveNavTarget p.1 ref reg).map
            (fun t =>
              ⟨ref.pageIndex, p.1.label, p.2 - 2, compNavY dims - 3,
                fw p.1.label + 4, 12, t⟩)) :=
  compNavLinksLoop_eq_filterMap fw (compNavY dims) ref.pageIndex ref reg
    (getNavItemsForPage ref reg) dims.padding.left

open Bujo in
/-- C10: for every generated page, the ordered label sequence and per-label
x offsets computed at link-emission time (`getNavItemsForPage` plus the
accumulation in `addComprehensiveNavigation`) are identical to those used
when the page's navigation text was drawn (`getNavLabels` plus
`drawTopNavigation`), given a `NavContext` whose enabled-section flags match
the registry contents; the navigation baselines also agree. -/
theorem C10_draw_and_link_geometry_agree (fw : String → ℚ) (dims : Dimensions)
    (ref : PageRef) (reg : PageRegistry) (nav : NavContext)
    (hFL : nav.hasFutureLog = decide (0 < reg.futureLogPages.length))
    (hML : nav.hasMonthlyLog = decide (0 < reg.monthlyCalPages.length))
    (hWR : nav.hasWeeklyReview = decide (0 < reg.weeklyPages.length)) :
    (compNavPositions fw (getNavItemsForPage ref reg) dims.padding.left).map
        (fun p => (p.1.label, p.2))
      = drawTopNavPositions fw (getNavLabels ref.type nav) dims.padding.left
    ∧ compNavY dims = pageUtilsNavY dims := by
  refine ⟨?_, rfl⟩
  exact compNavPositions_map_label fw _ _
    (navItems_labels_eq ref reg nav hFL hML hWR) _

/-- Concrete dimensions used by the pagination theorems' witnesses: height
597, top padding 50, bottom padding 30, so the monthly content budget
`availableHeightOf` is 462 and `contentTopOf` is 506. -/
def cDims : Bujo.Dimensions where
  WIDTH := 448
  HEIGHT := 597
  MARGIN := 20
  TOOLBAR_HEIGHT := 50
  padding := ⟨50, 30, 20, 20⟩

/-- The `normal` density profile (`DENSITY_CONFIGS.normal`): line height 18,
font size 9; its derived minimum row height is `round(18 * 0.7) = 13`. -/
def cDensity : Bujo.Density := ⟨18, 9⟩

theorem cAvail : Bujo.availableHeightOf cDims = 462 := by
  norm_num [Bujo.availableHeightOf, cDims]

theorem cMinLH : Bujo.minLineHeightOf cDensity = 13 := by
  unfold Bujo.minLineHeightOf Bujo.jsRound cDensity
  have h : ⌊(18 : ℚ) * (7 / 10) + 1 / 2⌋ = (13 : ℤ) := by
    rw [Int.floor_eq_iff]
    norm_num
  norm_num [h]

theorem cDpp : Bujo.daysPerPageOf cDims cDensity = 35 := by
  unfold Bujo.daysPerPageOf
  rw [cAvail, cMinLH]
  rw [Int.floor_eq_iff]
  norm_num

theorem cTop : Bujo.contentTopOf cDims = 506 := by
  norm_num [Bujo.contentTopOf, Bujo.navReturnYOf, Bujo.pageUtilsNavY, cDims]

/-- C5, counterexample.  With `N = 10` rows, preferred row height 18 and
`H = 462` the hypothesis `N * Rpref ≤ H` holds (180 ≤ 462), and the generator
does lay the month out on a single combined page — but its row height is the
preferred height 18 (`min(18, (contentTop - bottom - 10)/10) = min(18, 46.6)`),
not `H / N = 46.2`: the rows are not stretched to fill `H`. -/
theorem C5_counterexample :
    ((10 : ℚ) * cDensity.lineHeight ≤ Bujo.availableHeightOf cDims)
    ∧ Bujo.layoutRowHeight (Bujo.generateMonthlyLayout cDims cDensity 10) = some 18
    ∧ (18 : ℚ) ≠ Bujo.availableHeightOf cDims / 10 := by
  refine ⟨by rw [cAvail]; norm_num [cDensity], ?_, by rw [cAvail]; norm_num⟩
  have hns : Bujo.needsSplitOf cDims cDensity 10 = false := by
    unfold Bujo.needsSplitOf Bujo.calendarPagesOf
    rw [cDpp, cAvail]
    have hc : ⌈((10 : Nat) : ℚ) / ((35 : ℤ) : ℚ)⌉ = (1 : ℤ) := by
      rw [Int.ceil_eq_iff]
      norm_num
    rw [hc]
    norm_num [cDensity]
  unfold Bujo.generateMonthlyLayout
  rw [hns]
  simp only [Bool.false_eq_true, if_false, Bujo.layoutRowHeight]
  have hmin : min cDensity.lineHeight
      ((Bujo.contentTopOf cDims - cDims.padding.bottom - 10) / ((10 : Nat) : ℚ)) = 18 := by
    rw [cTop]
    norm_num [cDensity, cDims]
  rw [hmin]

open Bujo in
/-- C5, amended.  One-page case of the monthly pagination: whenever
`N * Rpref ≤ H` (with `N ≥ 1` and a preferred line height of at least `5/3`,
which makes the derived minimum row height positive and no larger than the
preferred one — all shipped density profiles satisfy this), the generator
lays out all `N` rows on a single combined calendar+tasks page with row
height `min(Rpref, (H + 4) / N)`, which under the hypothesis equals the
preferred row height `Rpref`: the rows keep the preferred height and are not
stretched to fill `H`. -/
theorem C5_single_page_uses_preferred_height (dims : Dimensions) (density : Density)
    (N : Nat) (hN : 1 ≤ N) (hlh : (5 : ℚ) / 3 ≤ density.lineHeight)
    (hfit : (N : ℚ) * density.lineHeight ≤ availableHeightOf dims) :
    generateMonthlyLayout dims density N
      = MonthlyLayout.combined density.lineHeight
          (genRowsPage 1 (contentTopOf dims) density.lineHeight N) := by
  have hNQ : (0 : ℚ) < (N : ℚ) := by exact_mod_cast hN
  have hminle : minLineHeightOf density ≤ density.lineHeight := by
    unfold minLineHeightOf jsRound
    have h1 : ((⌊density.lineHeight * (7 / 10) + 1 / 2⌋ : ℤ) : ℚ)
        ≤ density.lineHeight * (7 / 10) + 1 / 2 := Int.floor_le _
    linarith
  have hminpos : (0 : ℚ) < minLineHeightOf density := by
    unfold minLineHeightOf jsRound
    have h1 : (1 : ℤ) ≤ ⌊density.lineHeight * (7 / 10) + 1 / 2⌋ := by
      rw [Int.le_floor]
      push_cast
      linarith
    exact_mod_cast lt_of_lt_of_le Int.zero_lt_one h1
  have hNledpp : (N : ℤ) ≤ daysPerPageOf dims density := by
    unfold daysPerPageOf
    rw [Int.le_floor]
    push_cast
    rw [le_div_iff₀ hminpos]
    calc (N : ℚ) * minLineHeightOf density
        ≤ (N : ℚ) * density.lineHeight :=
          mul_le_mul_of_nonneg_left hminle (by positivity)
      _ ≤ availableHeightOf dims := hfit
  have hcal : calendarPagesOf dims density N ≤ 1 := by
    unfold calendarPagesOf
    rw [Int.ceil_le]
    have hdpppos : (0 : ℚ) < ((daysPerPageOf dims density : ℤ) : ℚ) := by
      have h2 : (1 : ℤ) ≤ daysPerPageOf dims density :=
        le_trans (by exact_mod_cast hN) hNledpp
      exact_mod_cast lt_of_lt_of_le Int.zero_lt_one h2
    push_cast
    rw [div_le_one hdpppos]
    exact_mod_cast hNledpp
  have hsplit : needsSplitOf dims density N = false := by
    unfold needsSplitOf
    simp only [Bool.or_eq_false_iff, decide_eq_false_iff_not, not_lt]
    exact ⟨hcal, hfit⟩
  have hflo : contentTopOf dims - dims.padding.bottom - 10
      = availableHeightOf dims + 4 := by
    unfold contentTopOf navReturnYOf pageUtilsNavY availableHeightOf
    ring
  have hmin : min density.lineHeight
      ((contentTopOf dims - dims.padding.bottom - 10) / (N : ℚ))
      = density.lineHeight := by
    rw [hflo]
    apply min_eq_left
    rw [le_div_iff₀ hNQ]
    nlinarith
  unfold generateMonthlyLayout
  rw [hsplit]
  simp only [Bool.false_eq_true, if_false]
  rw [hmin]

open Bujo in
/-- C5 witness: the amended one-page case at the concrete configuration
(`N = 10`, normal density, `H = 462`): a single combined page at the
preferred row height 18. -/
theorem C5_witness :
    ((1 : Nat) ≤ 10 ∧ (5 : ℚ) / 3 ≤ cDensity.lineHeight
      ∧ ((10 : Nat) : ℚ) * cDensity.lineHeight ≤ availableHeightOf cDims)
    ∧ generateMonthlyLayout cDims cDensity 10
        = MonthlyLayout.combined cDensity.lineHeight
            (genRowsPage 1 (contentTopOf cDims) cDensity.lineHeight 10) :=
  ⟨⟨by norm_num, by norm_num [cDensity], by rw [cAvail]; norm_num [cDensity]⟩,
    C5_single_page_uses_preferred_height cDims cDensity 10 (by norm_num)
      (by norm_num [cDensity]) (by rw [cAvail]; norm_num [cDensity])⟩

open Bujo in
/-- C6: overflow case of the monthly pagination.  With
`rowsPerPage = floor(H / Rmin) ≥ 1` and `N * Rpref > H`, the generator
produces exactly `ceil(N / rowsPerPage) = (N + rowsPerPage - 1) / rowsPerPage`
calendar pages — exactly `k` pages (every page non-empty, so no trailing empty
page) when `N = k * rowsPerPage`, and `k + 1` pages when
`N = k * rowsPerPage + r` with `0 < r < rowsPerPage` — and on each page,
including the last partially filled one, the row height equals `H` divided by
the number of rows actually placed on that page. -/
theorem C6_split_pagination (dims : Dimensions) (density : Density) (N : Nat)
    (hN : 1 ≤ N)
    (hminpos : (0 : ℚ) < minLineHeightOf density)
    (hfits : minLineHeightOf density ≤ availableHeightOf dims)
    (hover : availableHeightOf dims < (N : ℚ) * density.lineHeight) :
    ∃ pages,
      generateMonthlyLayout dims density N = MonthlyLayout.split pages
      ∧ pages.length
          = (N + (daysPerPageOf dims density).toNat - 1)
              / (daysPerPageOf dims density).toNat
      ∧ (∀ p ∈ pages,
          1 ≤ p.daysOnPage
          ∧ p.daysOnPage ≤ (daysPerPageOf dims density).toNat
          ∧ p.lineHeight = availableHeightOf dims / (p.daysOnPage : ℚ))
      ∧ (∀ k, N = k * (daysPerPageOf dims density).toNat → pages.length = k)
      ∧ (∀ k r, N = k * (daysPerPageOf dims density).toNat + r → 0 < r →
          r < (daysPerPageOf dims density).toNat → pages.length = k + 1) := by
  have hdppZ : (1 : ℤ) ≤ daysPerPageOf dims density := by
    unfold daysPerPageOf
    rw [Int.le_floor]
    push_cast
    rw [le_div_iff₀ hminpos]
    linarith
  set d := (daysPerPageOf dims density).toNat with hd
  have hd1 : 1 ≤ d := by omega
  have hdcast : ((d : ℤ) : ℚ) = ((daysPerPageOf dims density : ℤ) : ℚ) := by
    rw [hd]
    exact_mod_cast congrArg (fun z => ((z : ℤ) : ℚ)) (Int.toNat_of_nonneg (by omega))
  have hdmul : (d : ℚ) * minLineHeightOf density ≤ availableHeightOf dims := by
    have hfl : ((daysPerPageOf dims density : ℤ) : ℚ)
        ≤ availableHeightOf dims / minLineHeightOf density := Int.floor_le _
    have h2 : ((d : ℤ) : ℚ) ≤ availableHeightOf dims / minLineHeightOf density := by
      rw [hdcast]
      exact hfl
    have h3 : (d : ℚ) ≤ availableHeightOf dims / minLineHeightOf density := by
      exact_mod_cast h2
    calc (d : ℚ) * minLineHeightOf density
        ≤ (availableHeightOf dims / minLineHeightOf density) * minLineHeightOf density :=
          mul_le_mul_of_nonneg_right h3 (le_of_lt hminpos)
      _ = availableHeightOf dims := div_mul_cancel₀ _ (ne_of_gt hminpos)
  have hsplit : needsSplitOf dims density N = true := by
    unfold needsSplitOf
    simp [hover]
  refine ⟨genCalPages d (minLineHeightOf density) (availableHeightOf dims)
      (contentTopOf dims) N 1, ?_, ?_, ?_, ?_, ?_⟩
  · unfold generateMonthlyLayout
    rw [hsplit]
    simp only [if_true]
  · have hlen := genCalPages_length d (minLineHeightOf density) (availableHeightOf dims)
      (contentTopOf dims) N hd1 N 1 (by omega)
    have h11 : N + 1 - 1 = N := by omega
    rw [h11] at hlen
    exact hlen
  · intro p hp
    obtain ⟨hp1, hp2, hp3⟩ := genCalPages_mem d (minLineHeightOf density)
      (availableHeightOf dims) (contentTopOf dims) N hd1 N 1 (by omega) p hp
    refine ⟨hp1, hp2, ?_⟩
    rw [hp3]
    apply max_eq_right
    have hdayspos : (0 : ℚ) < (p.daysOnPage : ℚ) := by exact_mod_cast hp1
    rw [le_div_iff₀ hdayspos]
    have hcast : ((p.daysOnPage : ℕ) : ℚ) ≤ (d : ℚ) := by exact_mod_cast hp2
    nlinarith
  · intro k hNk
    have hlen := genCalPages_length d (minLineHeightOf density) (availableHeightOf dims)
      (contentTopOf dims) N hd1 N 1 (by omega)
    have h11 : N + 1 - 1 = N := by omega
    rw [h11] at hlen
    rw [hlen, hNk]
    have h12 : k * d + d - 1 = (d - 1) + k * d := by omega
    rw [h12, Nat.add_mul_div_right _ _ (by omega : 0 < d),
      Nat.div_eq_of_lt (by omega), Nat.zero_add]
  · intro k r hNkr hr0 hrd
    have hlen := genCalPages_length d (minLineHeightOf density) (availableHeightOf dims)
      (contentTopOf dims) N hd1 N 1 (by omega)
    have h11 : N + 1 - 1 = N := by omega
    rw [h11] at hlen
    rw [hlen, hNkr]
    have h12 : k * d + r + d - 1 = (r + d - 1) + k * d := by omega
    rw [h12, Nat.add_mul_div_right _ _ (by omega : 0 < d)]
    have h13 : (r + d - 1) / d = 1 := Nat.div_eq_of_lt_le (by omega) (by omega)
    rw [h13]
    omega

open Bujo in
/-- C6 witness: 40 rows, minimum row height 13, `H = 462`, so
`rowsPerPage = 35` and the generator must emit `ceil(40/35) = 2` calendar
pages with stretched row heights. -/
theorem C6_witness :
    ((1 : Nat) ≤ 40 ∧ (0 : ℚ) < minLineHeightOf cDensity
      ∧ minLineHeightOf cDensity ≤ availableHeightOf cDims
      ∧ availableHeightOf cDims < ((40 : Nat) : ℚ) * cDensity.lineHeight)
    ∧ (∃ pages,
      generateMonthlyLayout cDims cDensity 40 = MonthlyLayout.split pages
      ∧ pages.length
          = (40 + (daysPerPageOf cDims cDensity).toNat - 1)
              / (daysPerPageOf cDims cDensity).toNat
      ∧ (∀ p ∈ pages,
          1 ≤ p.daysOnPage
          ∧ p.daysOnPage ≤ (daysPerPageOf cDims cDensity).toNat
          ∧ p.lineHeight = availableHeightOf cDims / (p.daysOnPage : ℚ))
      ∧ (∀ k, 40 = k * (daysPerPageOf cDims cDensity).toNat → pages.length = k)
      ∧ (∀ k r, 40 = k * (daysPerPageOf cDims cDensity).toNat + r → 0 < r →
          r < (daysPerPageOf cDims cDensity).toNat → pages.length = k + 1)) :=
  ⟨⟨by norm_num, by rw [cMinLH]; norm_num, by rw [cMinLH, cAvail]; norm_num,
      by rw [cAvail]; norm_num [cDensity]⟩,
    C6_split_pagination cDims cDensity 40 (by norm_num) (by rw [cMinLH]; norm_num)
      (by rw [cMinLH, cAvail]; norm_num) (by rw [cAvail]; norm_num [cDensity])⟩

open Bujo in
/-- C4: round-trip link resolution.  For every calendar date of a generated
month, the link pass (`addMonthlyDateLinks`) re-derives the same
split/combined layout decision and the same per-row rectangle formula
(`contentTop`, per-page row height) as the monthly page generator used when
drawing, so its output is exactly: for each drawn `(day, y)` row whose day
has a registered daily page, one clickable rect over that row on the same
physical page, targeting that daily page's registered (final) page index —
and nothing else.  Hypotheses: at least one day, a line height of at least
`5/3` (all shipped profiles), at least one row fits per page, and
`monthPages` is exactly the month's generated calendar page list. -/
theorem C4_monthly_date_links_match_drawn_rows (dims : Dimensions)
    (density : Density) (N : Nat) (monthPages : List Nat)
    (lookup : Nat → Option Nat) (hN : 1 ≤ N)
    (hlh : (5 : ℚ) / 3 ≤ density.lineHeight)
    (hfits : minLineHeightOf density ≤ availableHeightOf dims)
    (hcount : monthPages.length = monthlyCalPageCount dims density N) :
    addMonthlyDateLinksModel dims density N monthPages lookup
      = expectedLinksOfLayout dims density lookup monthPages
          (generateMonthlyLayout dims density N) := by
  have hminpos := minLineHeight_pos density hlh
  have hdppZ : (1 : ℤ) ≤ daysPerPageOf dims density :=
    daysPerPage_ge_one dims density hminpos hfits
  have hd1 : 1 ≤ (daysPerPageOf dims density).toNat := by omega
  cases hns : needsSplitOf dims density N with
  | true =>
    have hlay : generateMonthlyLayout dims density N
        = MonthlyLayout.split (genCalPages (daysPerPageOf dims density).toNat
            (minLineHeightOf density) (availableHeightOf dims)
            (contentTopOf dims) N 1) := by
      unfold generateMonthlyLayout
      rw [hns]
      simp only [if_true]
    have hlen : monthPages.length
        = (genCalPages (daysPerPageOf dims density).toNat (minLineHeightOf density)
            (availableHeightOf dims) (contentTopOf dims) N 1).length := by
      rw [hcount]
      unfold monthlyCalPageCount
      rw [hlay]
    have hisplit : (decide (1 < monthPages.length)
        || decide (availableHeightOf dims
            < (N : ℚ) * density.lineHeight)) = true := by
      unfold needsSplitOf at hns
      rcases Bool.or_eq_true_iff.mp hns with h | h
      · have hcal : (1 : ℤ) < calendarPagesOf dims density N := of_decide_eq_true h
        have hdpppos : (0 : ℚ) < ((daysPerPageOf dims density : ℤ) : ℚ) := by
          exact_mod_cast lt_of_lt_of_le Int.zero_lt_one hdppZ
        have hdpplt : ((daysPerPageOf dims density : ℤ) : ℚ) < (N : ℚ) := by
          unfold calendarPagesOf at hcal
          rw [Int.lt_ceil] at hcal
          push_cast at hcal
          rw [one_lt_div hdpppos] at hcal
          exact hcal
        have hdn : (daysPerPageOf dims density).toNat < N := by
          have h2 : daysPerPageOf dims density < (N : ℤ) := by exact_mod_cast hdpplt
          omega
        have hplen := genCalPages_length (daysPerPageOf dims density).toNat
          (minLineHeightOf density) (availableHeightOf dims) (contentTopOf dims)
          N hd1 N 1 (by omega)
        have h2 : 2 ≤ (genCalPages (daysPerPageOf dims density).toNat
            (minLineHeightOf density) (availableHeightOf dims)
            (contentTopOf dims) N 1).length := by
          rw [hplen]
          have h11 : N + 1 - 1 = N := by omega
          rw [h11]
          rw [Nat.le_div_iff_mul_le (by omega : 0 < (daysPerPageOf dims density).toNat)]
          omega
        have h3 : 1 < monthPages.length := by
          rw [hlen]
          omega
        simp [h3]
      · simp [of_decide_eq_true h]
    unfold addMonthlyDateLinksModel
    simp only
    rw [hisplit]
    simp only [if_true]
    rw [hlay]
    unfold expectedLinksOfLayout
    exact linkCalPages_eq_expected (daysPerPageOf dims density).toNat
      (minLineHeightOf density) (availableHeightOf dims) (contentTopOf dims)
      dims.padding.left density.fontSize N lookup hd1 monthPages 1 hlen
  | false =>
    have hlay : generateMonthlyLayout dims density N
        = MonthlyLayout.combined
            (min density.lineHeight
              ((contentTopOf dims - dims.padding.bottom - 10) / (N : ℚ)))
            (genRowsPage 1 (contentTopOf dims)
              (min density.lineHeight
                ((contentTopOf dims - dims.padding.bottom - 10) / (N : ℚ))) N) := by
      unfold generateMonthlyLayout
      rw [hns]
      simp only [Bool.false_eq_true, if_false]
    have hcount1 : monthPages.length = 1 := by
      rw [hcount]
      unfold monthlyCalPageCount
      rw [hlay]
    obtain ⟨pg, hmp⟩ : ∃ pg, monthPages = [pg] := List.length_eq_one.mp hcount1
    have hnofit : ¬ (availableHeightOf dims < (N : ℚ) * density.lineHeight) := by
      unfold needsSplitOf at hns
      simp only [Bool.or_eq_false_iff, decide_eq_false_iff_not] at hns
      exact hns.2
    subst hmp
    unfold addMonthlyDateLinksModel
    simp only
    have hisplit : (decide (1 < [pg].length)
        || decide (availableHeightOf dims
            < (N : ℚ) * density.lineHeight)) = false := by
      simp [hnofit]
    rw [hisplit]
    simp only [Bool.false_eq_true, if_false]
    rw [hlay]
    unfold expectedLinksOfLayout
    exact linkRowsPage_eq_filterMap pg dims.padding.left density.fontSize lookup
      N 1 (contentTopOf dims) _

/-- Evaluation of the generated calendar page count at the witness
configuration: 40 days at 35 rows per page means 2 calendar pages. -/
theorem c4CountEval : Bujo.monthlyCalPageCount cDims cDensity 40 = 2 := by
  unfold Bujo.monthlyCalPageCount
  have hns : Bujo.needsSplitOf cDims cDensity 40 = true := by
    unfold Bujo.needsSplitOf
    rw [cAvail]
    simp only [Bool.or_eq_true_iff, decide_eq_true_eq]
    right
    norm_num [cDensity]
  unfold Bujo.generateMonthlyLayout
  rw [hns]
  simp only [if_true]
  rw [Bujo.genCalPages_length (Bujo.daysPerPageOf cDims cDensity).toNat
    (Bujo.minLineHeightOf cDensity) (Bujo.availableHeightOf cDims)
    (Bujo.contentTopOf cDims) 40 (by rw [cDpp]; norm_num) 40 1 (by omega)]
  rw [cDpp]
  decide

open Bujo in
/-- C4 witness at the concrete split configuration: 40 days, normal density,
two physical calendar pages (7 and 8), one registered daily page for day 15. -/
theorem C4_witness :
    ((1 : Nat) ≤ 40 ∧ (5 : ℚ) / 3 ≤ cDensity.lineHeight
      ∧ minLineHeightOf cDensity ≤ availableHeightOf cDims
      ∧ ([7, 8] : List Nat).length = monthlyCalPageCount cDims cDensity 40)
    ∧ addMonthlyDateLinksModel cDims cDensity 40 [7, 8]
          (fun d => if d = 15 then some 99 else none)
        = expectedLinksOfLayout cDims cDensity
            (fun d => if d = 15 then some 99 else none) [7, 8]
            (generateMonthlyLayout cDims cDensity 40) :=
  ⟨⟨by norm_num, by norm_num [cDensity], by rw [cMinLH, cAvail]; norm_num,
      by simp [c4CountEval]⟩,
    C4_monthly_date_links_match_drawn_rows cDims cDensity 40 [7, 8]
      (fun d => if d = 15 then some 99 else none) (by norm_num)
      (by norm_num [cDensity]) (by rw [cMinLH, cAvail]; norm_num)
      (by simp [c4CountEval])⟩

/-- Concrete registry for the C10 witness: one future-log page, one monthly
calendar page, one weekly page. -/
def c10Reg : Bujo.PageRegistry where
  indexPage := 1
  futureLogPages := [2]
  monthlyCalPages := [("2025-01", 3)]
  monthlyTasksPages := [("2025-01", 4)]
  weeklyPages := [(1, 5)]
  dailyPages := []
  collectionPages := []
  keyPage := none
  pagesByType := fun _ => []

/-- Concrete dimensions for the C10 witness (reMarkable 2 page). -/
def c10Dims : Bujo.Dimensions where
  WIDTH := 448
  HEIGHT := 597
  MARGIN := 20
  TOOLBAR_HEIGHT := 40
  padding := ⟨40, 20, 20, 20⟩

/-- Concrete monthly page ref for the C10 witness. -/
def c10Ref : Bujo.PageRef :=
  { label := "January", pageIndex := 3, type := Bujo.PageType.monthly,
    yearMonth := some "2025-01" }

open Bujo in
/-- C10 witness at a concrete page, registry and font-width function. -/
theorem C10_witness :
    ((⟨true, true, true, true⟩ : NavContext).hasFutureLog
        = decide (0 < c10Reg.futureLogPages.length)
      ∧ (⟨true, true, true, true⟩ : NavContext).hasMonthlyLog
        = decide (0 < c10Reg.monthlyCalPages.length)
      ∧ (⟨true, true, true, true⟩ : NavContext).hasWeeklyReview
        = decide (0 < c10Reg.weeklyPages.length))
    ∧ ((compNavPositions (fun s => (s.length : ℚ)) (getNavItemsForPage c10Ref c10Reg)
          c10Dims.padding.left).map (fun p => (p.1.label, p.2))
        = drawTopNavPositions (fun s => (s.length : ℚ))
            (getNavLabels c10Ref.type ⟨true, true, true, true⟩) c10Dims.padding.left
      ∧ compNavY c10Dims = pageUtilsNavY c10Dims) :=
  ⟨⟨by decide, by decide, by decide⟩,
    C10_draw_and_link_geometry_agree (fun s => (s.length : ℚ)) c10Dims c10Ref c10Reg
      ⟨true, true, true, true⟩ (by decide) (by decide) (by decide)⟩

/-- C1, counterexample.  Two calendar pages of the same split month
(`yearMonth = "2025-01"`), the first at page index 5, the continuation page at
index 6, exactly as `generateMonthlyLog` emits them (`bujo-monthly.ts` lines
103–117: every calendar page of a split month is pushed with `type: 'monthly'`
and the same `yearMonth`).  `buildPageRegistry` registers the *later*
continuation page (6) under the key, not the first page (5): the claim's
"a later continuation page never overwrites the already-registered entry" is
false on the code (`navigation.ts` line 51 is a plain `Map.set`). -/
theorem C1_counterexample :
    Bujo.lookupLast (Bujo.buildPageRegistry
      [ { label := "January Cal 1", pageIndex := 5, type := Bujo.PageType.monthly,
          yearMonth := some "2025-01" },
        { label := "January Cal 2", pageIndex := 6, type := Bujo.PageType.monthly,
          yearMonth := some "2025-01" } ] 1).monthlyCalPages "2025-01" ≠ some 5
    ∧ Bujo.lookupLast (Bujo.buildPageRegistry
      [ { label := "January Cal 1", pageIndex := 5, type := Bujo.PageType.monthly,
          yearMonth := some "2025-01" },
        { label := "January Cal 2", pageIndex := 6, type := Bujo.PageType.monthly,
          yearMonth := some "2025-01" } ] 1).monthlyCalPages "2025-01" = some 6
    ∧ (Bujo.buildPageRegistry
      [ { label := "January Cal 1", pageIndex := 5, type := Bujo.PageType.monthly,
          yearMonth := some "2025-01" },
        { label := "January Cal 2", pageIndex := 6, type := Bujo.PageType.monthly,
          yearMonth := some "2025-01" } ] 1).pagesByType Bujo.PageType.monthly = [5, 6] := by
  refine ⟨?_, ?_, ?_⟩ <;> decide

/-- C1, amended.  For a month whose calendar is split across multiple calendar
pages, `buildPageRegistry` registers the *last* calendar page carrying a given
`yearMonth` key as that key's `monthly` entry — each later `monthly`
continuation page with the same `yearMonth` overwrites the already-registered
entry — while `pagesByType['monthly']` still contains every calendar page's
index in order. -/
theorem C1_monthly_registry_last_wins (refs : List Bujo.PageRef) (idx : Nat) (ym : String) :
    Bujo.lookupLast (Bujo.buildPageRegistry refs idx).monthlyCalPages ym =
      (Bujo.monthlyRefsFor refs ym).getLast?.map (·.pageIndex)
    ∧ (Bujo.buildPageRegistry refs idx).pagesByType Bujo.PageType.monthly =
      (refs.filter (fun r => decide (r.type = Bujo.PageType.monthly))).map (·.pageIndex) := by
  constructor
  · rw [Bujo.buildPageRegistry, Bujo.foldl_regStep_monthlyCal]
    cases h : (Bujo.monthlyRefsFor refs ym).getLast?.map (·.pageIndex) <;>
      simp [h, Bujo.emptyRegistry, Bujo.lookupLast]
  · rw [Bujo.buildPageRegistry, Bujo.foldl_regStep_pagesByType]
    simp [Bujo.emptyRegistry]
